import Mathlib

/-!
Verification of the ride-route generator of the `chat-cycling` repository
(`src/app/lib/gpx.ts` and `src/app/api/gpx/route.ts`).

Modelling conventions, used throughout:
* JavaScript double-precision numbers are modelled as exact rationals (`ℚ`).
  Decimal literals of the source (`0.4`, `0.15`, …) become the corresponding
  rationals.  All numeric claims under scrutiny are stated by the spec at the
  exact-arithmetic level.
* 32-bit integer operations (`|0`, `<<`, `>>>`, `^`, `|`, `Math.imul`) are
  modelled on `ℤ` with explicit reduction modulo `2^32 = 4294967296`,
  reinterpreting into the signed range where the source does.
* JavaScript strings are modelled as Lean `String`/`List Char`; `charCodeAt`
  is the code point (exact for the Basic Multilingual Plane inputs considered
  here), and case conversion is ASCII case conversion (the inputs exercised by
  the claims are ASCII).
* `Math.sin`, `Math.cos` and `Math.PI` are real-valued and have no exact
  rational counterpart; the synthesizer is parametrised over them
  (`TrigModel`).  Every claim about the synthesizer is either independent of
  trigonometry or quantified over the model.
-/

set_option allowUnsafeReducibility true
set_option maxRecDepth 10000
set_option maxHeartbeats 2000000
attribute [local semireducible] Rat.add Rat.mul Rat.inv Rat.sub Rat.ofScientific

/-! ## Definitions: shallow embedding of the source -/

/-- `ToInt32`: reduce an integer to the signed 32-bit range, as JavaScript's
`|0` does. -/
def toInt32 (z : ℤ) : ℤ :=
  if 2147483648 ≤ z % 4294967296 then z % 4294967296 - 4294967296 else z % 4294967296

/-- `ToUint32`: the unsigned 32-bit representative, as JavaScript's `>>> 0`. -/
def toUint32 (z : ℤ) : ℕ :=
  (z % 4294967296).toNat

/-- JavaScript `x << n` on a 32-bit integer. -/
def jsShiftLeft (z : ℤ) (n : ℕ) : ℤ :=
  toInt32 (toInt32 z * 2 ^ n)

/-- JavaScript `x >>> n` (unsigned right shift), result is non-negative. -/
def jsShrU (z : ℤ) (n : ℕ) : ℤ :=
  ((toUint32 z) / 2 ^ n : ℕ)

/-- JavaScript `x ^ y` (bitwise xor on 32-bit two's-complement values). -/
def jsXor (a b : ℤ) : ℤ :=
  toInt32 (Nat.xor (toUint32 a) (toUint32 b) : ℕ)

/-- JavaScript `x | y` (bitwise or on 32-bit two's-complement values). -/
def jsOr (a b : ℤ) : ℤ :=
  toInt32 (Nat.lor (toUint32 a) (toUint32 b) : ℕ)

/-- JavaScript `Math.imul`: 32-bit integer multiplication. -/
def jsImul (a b : ℤ) : ℤ :=
  toInt32 (toInt32 a * toInt32 b)

/-- One step of the seed fold in `createDeterministicRng`:
`seed = (seed << 5) - seed + code; seed |= 0`.  The subtraction and addition
happen in doubles (exact at these magnitudes), then `|0` reduces to int32. -/
def charCodeStep (seed code : ℤ) : ℤ :=
  toInt32 (jsShiftLeft seed 5 - seed + code)

/-- The seed derived from a list of character codes (the `for` loop of
`createDeterministicRng`, starting from `seed = 0`). -/
def seedOfCodes (codes : List ℤ) : ℤ :=
  codes.foldl charCodeStep 0

/-- `charCodeAt` for each position of the string.  Lean code points coincide
with UTF-16 code units on the Basic Multilingual Plane, which covers every
input exercised here. -/
def jsCharCodes (s : String) : List ℤ :=
  s.data.map fun c => (c.toNat : ℤ)

/-- The seed fold as the spec words it: `acc = acc*31 + code`, wrapped to
32-bit signed semantics at every step. -/
def seedFoldSpec (codes : List ℤ) : ℤ :=
  codes.foldl (fun acc code => toInt32 (acc * 31 + code)) 0

/-- One draw of the returned `rng` closure: advances the state and produces a
rational in `[0,1)`.  Mirrors
`seed = (seed + 0x6d2b79f5) | 0; let t = Math.imul(seed ^ (seed >>> 15), 1 | seed);
t = (t + Math.imul(t ^ (t >>> 7), 61 | t)) ^ t;
return ((t ^ (t >>> 14)) >>> 0) / 4294967296;`. -/
def rngNext (seed : ℤ) : ℤ × ℚ :=
  let s := toInt32 (seed + 0x6d2b79f5)
  let t0 := jsImul (jsXor s (jsShrU s 15)) (jsOr 1 s)
  let t1 := jsXor (t0 + jsImul (jsXor t0 (jsShrU t0 7)) (jsOr 61 t0)) t0
  let u : ℕ := toUint32 (jsXor t1 (jsShrU t1 14))
  (s, (u : ℚ) / 4294967296)

/-- The internal RNG state after `n` draws. -/
def rngStateAfter (s : ℤ) : ℕ → ℤ
  | 0 => s
  | n + 1 => (rngNext (rngStateAfter s n)).1

/-- The value of the `n`-th draw (0-based) of the RNG seeded with `s`. -/
def rngStream (s : ℤ) (n : ℕ) : ℚ :=
  (rngNext (rngStateAfter s n)).2

/-- JavaScript `Math.round`: round half toward positive infinity. -/
def jsRound (q : ℚ) : ℤ :=
  ⌊q + 1 / 2⌋

/-- `pointCount` of `createTrackPoints`:
`Math.max(12, Math.min(240, Math.round(request.distanceKm * 6)))`. -/
def pointCount (distanceKm : ℚ) : ℕ :=
  (max 12 (min 240 (jsRound (distanceKm * 6)))).toNat

/-- JavaScript regex `\s` / `trim` whitespace, restricted to its ASCII part
(the Unicode space characters never occur in the inputs considered). -/
def jsIsWs (c : Char) : Bool :=
  c = ' ' || c = '\t' || c = '\n' || c = '\r' || c = Char.ofNat 11 || c = Char.ofNat 12

/-- ASCII lower-casing of a character sequence (JavaScript `toLowerCase`,
restricted to ASCII). -/
def lowerStr (l : List Char) : List Char :=
  l.map Char.toLower

/-- JavaScript `String.prototype.trim` on a character sequence. -/
def jsTrimList (l : List Char) : List Char :=
  ((l.dropWhile jsIsWs).reverse.dropWhile jsIsWs).reverse

/-- JavaScript `String.prototype.trim`. -/
def jsTrim (s : String) : String :=
  String.mk (jsTrimList s.data)

/-- The regex character class `[\d,.]` of `parseDistance`/`parseElevation`. -/
def numClassChar (c : Char) : Bool :=
  c.isDigit || c = ',' || c = '.'

/-- First maximal run of characters satisfying `p` (the first match of the
regex `p+` when scanning left to right), or `none` when no character
satisfies `p`. -/
def firstRun (p : Char → Bool) : List Char → Option (List Char)
  | [] => none
  | c :: rest => if p c then some (c :: rest.takeWhile p) else firstRun p rest

/-- `value.replace(/,/g, ".")` on a character sequence. -/
def commasToDots (l : List Char) : List Char :=
  l.map fun c => if c = ',' then '.' else c

/-- Value of a digit sequence read in base 10. -/
def digitsVal (l : List Char) : ℕ :=
  l.foldl (fun acc c => acc * 10 + (c.toNat - 48)) 0

/-- JavaScript `parseFloat` on a character sequence: skip leading whitespace,
optional sign, then the longest decimal-literal prefix
(`digits [. digits] [e [sign] digits]`); `none` models the `NaN` outcome.
Doubles are modelled as exact rationals, so the result is the exact decimal
value and is always finite ("Infinity" inputs, which every caller rejects via
`Number.isFinite`, are also mapped to `none`). -/
def jsParseFloatList (l : List Char) : Option ℚ :=
  let l1 := l.dropWhile jsIsWs
  let sgn : ℚ := match l1 with
    | '-' :: _ => -1
    | _ => 1
  let l2 := match l1 with
    | '+' :: r => r
    | '-' :: r => r
    | _ => l1
  let ip := l2.takeWhile Char.isDigit
  let l3 := l2.dropWhile Char.isDigit
  let fp := match l3 with
    | '.' :: r => r.takeWhile Char.isDigit
    | _ => []
  let l4 := match l3 with
    | '.' :: r => r.dropWhile Char.isDigit
    | _ => l3
  if ip.isEmpty && fp.isEmpty then none
  else
    let mant : ℚ := (digitsVal ip : ℚ) + (digitsVal fp : ℚ) / 10 ^ fp.length
    let e : ℤ := match l4 with
      | c :: r =>
        if c = 'e' || c = 'E' then
          let es : ℤ := match r with
            | '-' :: _ => -1
            | _ => 1
          let r2 := match r with
            | '+' :: t => t
            | '-' :: t => t
            | _ => r
          let ed := r2.takeWhile Char.isDigit
          if ed.isEmpty then 0 else es * (digitsVal ed : ℤ)
        else 0
      | [] => 0
    some (sgn * mant * (10 : ℚ) ^ e)

/-- JavaScript `parseFloat` on a string. -/
def jsParseFloat (s : String) : Option ℚ :=
  jsParseFloatList s.data

/-- `parseDistance`: first match of `([\d,.]+)` in the value, commas replaced
by periods, `parseFloat`, rejecting non-positive results (the kilometre-unit
group of the regex only consumes trailing text and does not affect the
captured numeral). -/
def parseDistance (value : String) : Option ℚ :=
  match firstRun numClassChar value.data with
  | none => none
  | some run =>
    match jsParseFloatList (commasToDots run) with
    | none => none
    | some q => if q ≤ 0 then none else some q

/-- `parseElevation`: first match of `([\d,.]+)` in the value, commas replaced
by periods, `parseFloat`, rejecting negative results (zero is accepted; the
meter-unit and `d+` groups only consume trailing text). -/
def parseElevation (value : String) : Option ℚ :=
  match firstRun numClassChar value.data with
  | none => none
  | some run =>
    match jsParseFloatList (commasToDots run) with
    | none => none
    | some q => if q < 0 then none else some q

/-- The structured ride request produced by the parser (`GpxRequest` in
`src/app/lib/gpx.ts`). -/
structure GpxRequest where
  address : String
  distanceKm : ℚ
  elevationGain : ℚ
  practiceType : String
  deriving DecidableEq, Repr

/-- `hasSubList needle hay`: JavaScript `hay.includes(needle)` on character
sequences. -/
def hasSubList : List Char → List Char → Bool
  | needle, [] => needle.isEmpty
  | needle, c :: rest => needle.isPrefixOf (c :: rest) || hasSubList needle rest

/-- JavaScript `hay.includes(needle)`. -/
def jsIncludes (hay needle : String) : Bool :=
  hasSubList needle.data hay.data

/-- A case-insensitive alternation regex test `/(w1|w2|…)/i.test(label)`:
does the label contain one of the words, ignoring ASCII case? -/
def labelHasAny (label : List Char) (syns : List String) : Bool :=
  syns.any fun n => hasSubList n.data (lowerStr label)

/-- `rawMessage.replace(/^\s*\/gpx/i, "")`: strip one leading run of
whitespace followed by the `/gpx` marker (case-insensitive); if the anchored
pattern does not match, the text is unchanged. -/
def stripLeadGpx (l : List Char) : List Char :=
  let rest := l.dropWhile jsIsWs
  if lowerStr (rest.take 4) = ['/', 'g', 'p', 'x'] then rest.drop 4 else l

/-- Drop one leading `':'` if present (the optional `:?` of the marker
regex). -/
def dropColonOpt (l : List Char) : List Char :=
  match l with
  | ':' :: t => t
  | _ => l

/-- `.replace(/gpx\s*:?/gi, "")`, fuelled: remove every occurrence of `gpx`
followed by optional whitespace and an optional colon, scanning left to
right without rescanning removed text.  The fuel argument (instantiated
with the text length, which bounds the number of scan steps) makes the
recursion structural. -/
def removeGpxFuel : ℕ → List Char → List Char
  | 0, l => l
  | _ + 1, [] => []
  | fuel + 1, c :: rest =>
    if lowerStr (List.take 3 (c :: rest)) = ['g', 'p', 'x'] then
      removeGpxFuel fuel (dropColonOpt ((rest.drop 2).dropWhile jsIsWs))
    else
      c :: removeGpxFuel fuel rest

/-- `.replace(/gpx\s*:?/gi, "")`. -/
def removeGpx (l : List Char) : List Char :=
  removeGpxFuel l.length l

/-- Split a character sequence at every character satisfying `p`, keeping
empty fields, as JavaScript `split` with a single-character class does.  The
source splits on the run regex `[\n;]+`, which differs only by dropping
empty fields between adjacent delimiters — those are removed by the
`.filter(Boolean)` step of the pipeline in either case. -/
def splitOnPred (p : Char → Bool) : List Char → List (List Char)
  | [] => [[]]
  | c :: rest =>
    if p c then [] :: splitOnPred p rest
    else
      match splitOnPred p rest with
      | [] => [[c]]
      | f :: fs => (c :: f) :: fs

/-- JavaScript truthiness of a nullable string: neither `null` nor `""`. -/
def isTruthy (o : Option String) : Bool :=
  match o with
  | some s => !(s == "")
  | none => false

/-- The parser's four accumulator variables (`address`, `distanceKm`,
`elevationGain`, `practiceType`), each initially `null`. -/
structure ParseAcc where
  address : Option String
  distanceKm : Option ℚ
  elevationGain : Option ℚ
  practiceType : Option String
  deriving DecidableEq, Repr

/-- One iteration of the parser's segment loop (`for (const segment of
segments)` in `parseGpxRequest`): split the segment once on the first colon
or equals sign, classify the label against the synonym alternations in
source order, and otherwise fall back to unit-sniffing and positional
adoption. -/
def processSegment (st : ParseAcc) (seg : List Char) : ParseAcc :=
  let parts := splitOnPred (fun c => c = ':' || c = '=') seg
  let labelPart := jsTrimList (parts.headD [])
  let valuePart : Option (List Char) :=
    match parts with
    | _ :: v :: _ => some (jsTrimList v)
    | _ => none
  let label : List Char :=
    match valuePart with
    | some v => if v.isEmpty then [] else lowerStr labelPart
    | none => []
  let value : List Char := valuePart.getD labelPart
  if value.isEmpty then st
  else if labelHasAny label ["address", "adresse", "from", "depuis"] then
    { st with address := some (String.mk value) }
  else if labelHasAny label ["practice", "pratique", "type", "discipline"] then
    { st with practiceType := some (String.mk value) }
  else if labelHasAny label ["distance", "km"] then
    match parseDistance (String.mk value) with
    | some q => { st with distanceKm := some q }
    | none => st
  else if labelHasAny label ["d+", "elevation", "gain", "denivel", "climb"] then
    match parseElevation (String.mk value) with
    | some q => { st with elevationGain := some q }
    | none => st
  else
    match (if st.distanceKm.isNone then parseDistance (String.mk value) else none) with
    | some q => { st with distanceKm := some q }
    | none =>
      match (if st.elevationGain.isNone then parseElevation (String.mk value) else none) with
      | some q => { st with elevationGain := some q }
      | none =>
        if !isTruthy st.address then { st with address := some (String.mk value) }
        else if !isTruthy st.practiceType then { st with practiceType := some (String.mk value) }
        else st

/-- Drop a keyword as a case-insensitive prefix, returning the remaining
text on success. -/
def dropCaseless : List Char → List Char → Option (List Char)
  | [], rest => some rest
  | _ :: _, [] => none
  | k :: ks, c :: cs => if c.toLower = k.toLower then dropCaseless ks cs else none

/-- Try an alternation of literal keywords at the current position, in
regex order; return the text after the first that matches. -/
def matchKeywordAt : List String → List Char → Option (List Char)
  | [], _ => none
  | k :: ks, l =>
    match dropCaseless k.data l with
    | some t => some t
    | none => matchKeywordAt ks l

/-- Does a case-insensitive keyword match at this position? -/
def startsWithCaseless (kw : String) (l : List Char) : Bool :=
  (dropCaseless kw.data l).isSome

/-- The lookahead `(?=(?:\s+for|\s+distance|\s+d\+|\s+elevation|$))` of the
prose address regex. -/
def addressStopOk (l : List Char) : Bool :=
  match l with
  | [] => true
  | _ =>
    let ws := l.takeWhile jsIsWs
    let t := l.dropWhile jsIsWs
    !ws.isEmpty &&
      (startsWithCaseless "for" t || startsWithCaseless "distance" t ||
        startsWithCaseless "d+" t || startsWithCaseless "elevation" t)

/-- The lazy capture `([^,\n]+?)` of the prose address regex: the shortest
non-empty run of characters other than comma/newline after which the
lookahead holds.  (Backtracking of the preceding `\s+` into the capture is
not modelled; it can only prepend whitespace to the capture, which the
subsequent `.trim()` discards.) -/
def captureLazy : List Char → Option (List Char)
  | [] => none
  | c :: rest =>
    if c = ',' || c = '\n' then none
    else if addressStopOk rest then some [c]
    else (captureLazy rest).map (c :: ·)

/-- The secondary prose scan for an address over the original message:
`/(?:from|starting at|departing from|depuis|adresse)\s+([^,\n]+?)(?=…)/i`,
scanning match positions left to right. -/
def addressScanAux : List Char → Option (List Char)
  | [] => none
  | c :: rest =>
    match matchKeywordAt ["from", "starting at", "departing from", "depuis", "adresse"]
        (c :: rest) with
    | some tail =>
      let t1 := tail.dropWhile jsIsWs
      if (tail.takeWhile jsIsWs).isEmpty then addressScanAux rest
      else
        match captureLazy t1 with
        | some cap => some cap
        | none => addressScanAux rest
    | none => addressScanAux rest

/-- The secondary scan for a practice type:
`/(?:practice|type|pratique|discipline)\s*[:=]?\s*([\p{L}\s]+)/iu` with the
letter class restricted to ASCII letters.  (When the greedy capture can only
pick up whitespace, the regex still matches with an all-whitespace capture,
which trims to the empty — falsy — string; this model reports no match
there, which the final all-fields-truthy guard cannot distinguish.) -/
def practiceScanAux : List Char → Option (List Char)
  | [] => none
  | c :: rest =>
    match matchKeywordAt ["practice", "type", "pratique", "discipline"] (c :: rest) with
    | some tail =>
      let t1 := tail.dropWhile jsIsWs
      let t2 := match t1 with
        | ':' :: t => t
        | '=' :: t => t
        | _ => t1
      let t3 := t2.dropWhile jsIsWs
      let cap := t3.takeWhile fun ch => ch.isAlpha || jsIsWs ch
      if cap.isEmpty then practiceScanAux rest else some cap
    | none => practiceScanAux rest

/-- The fragment pipeline of `parseGpxRequest`: strip the leading command
marker and every `gpx` token, trim, split on newlines and semicolons, split
each piece on commas, flatten, trim each fragment and keep the non-empty
ones. -/
def segmentsOf (rawMessage : String) : List (List Char) :=
  let cleaned := jsTrimList (removeGpx (stripLeadGpx rawMessage.data))
  ((((splitOnPred (fun c => c = '\n' || c = ';') cleaned).map
      (splitOnPred (fun c => c = ','))).flatten.map jsTrimList).filter
    (fun l => !l.isEmpty))

/-- The secondary prose-address fallback of `parseGpxRequest`: keep the
segment-loop value when truthy, otherwise adopt the trimmed capture of the
prose scan over the original message when it matches. -/
def resolvedAddress (st : ParseAcc) (rawMessage : String) : Option String :=
  if isTruthy st.address then st.address
  else
    match addressScanAux rawMessage.data with
    | some cap => some (String.mk (jsTrimList cap))
    | none => st.address

/-- The secondary practice-type fallback of `parseGpxRequest`. -/
def resolvedPractice (st : ParseAcc) (rawMessage : String) : Option String :=
  if isTruthy st.practiceType then st.practiceType
  else
    match practiceScanAux rawMessage.data with
    | some cap => some (String.mk (jsTrimList cap))
    | none => st.practiceType

/-- `parseGpxRequest`: reject messages without the `gpx` marker, strip the
marker, split into trimmed non-empty fragments, run the segment loop, apply
the two secondary prose scans, and return a request only when all four
fields are resolved and truthy. -/
def parseGpxRequest (rawMessage : String) : Option GpxRequest :=
  if rawMessage = "" then none
  else if !jsIncludes (String.mk (lowerStr rawMessage.data)) "gpx" then none
  else
    let st := (segmentsOf rawMessage).foldl processSegment ⟨none, none, none, none⟩
    let address := resolvedAddress st rawMessage
    let practiceType := resolvedPractice st rawMessage
    if isTruthy address && st.distanceKm.isSome && st.elevationGain.isSome &&
        isTruthy practiceType then
      some ⟨address.getD "", st.distanceKm.getD 0, st.elevationGain.getD 0,
        practiceType.getD ""⟩
    else none

/-- Validity invariant of the parser's accumulator: a resolved distance is
positive and a resolved elevation gain is non-negative. -/
def accOk (st : ParseAcc) : Prop :=
  (∀ q : ℚ, st.distanceKm = some q → 0 < q) ∧
    (∀ q : ℚ, st.elevationGain = some q → 0 ≤ q)

/-- One synthesized track point: position, elevation, time offset. -/
structure TrackPoint where
  lat : ℚ
  lon : ℚ
  ele : ℚ
  timeOffset : ℚ
  deriving DecidableEq, Repr

/-- `Math.sin`, `Math.cos` and `Math.PI` are real-valued and have no exact
rational model; the synthesizer is parametrised over them.  Every theorem
below holds for every instantiation (in particular for the real functions),
and concrete evaluations instantiate them with rational stand-ins. -/
structure TrigModel where
  sin : ℚ → ℚ
  cos : ℚ → ℚ
  pi : ℚ

/-- `estimateAverageSpeed`: keyword table over the lower-cased practice
type. -/
def estimateAverageSpeed (practiceType : String) : ℚ :=
  if labelHasAny practiceType.data ["road", "route", "endurance", "training"] then 28
  else if labelHasAny practiceType.data ["gravel", "bikepacking"] then 22
  else if labelHasAny practiceType.data ["mtb", "vtt", "trail", "all-mountain"] then 16
  else if labelHasAny practiceType.data ["commute", "city", "urban", "velo taf"] then 18
  else 20

/-- `getPracticeRoughness`: keyword table over the lower-cased practice
type. -/
def getPracticeRoughness (practiceType : String) : ℚ :=
  if labelHasAny practiceType.data ["mtb", "vtt", "trail", "all-mountain"] then 1.3
  else if labelHasAny practiceType.data ["gravel", "bikepacking"] then 1.1
  else 0.8

/-- `ascentPoints = Math.max(3, Math.round(pointCount * 0.4))`.  (For the
integer point counts in `[12, 240]`, `pointCount * 0.4` is never a half-way
tie and lies at distance at least `1/10` from one, so the double rounding of
`0.4` cannot shift `Math.round`; the exact rational is used.) -/
def ascentPoints (pc : ℕ) : ℕ :=
  (max 3 (jsRound ((pc : ℚ) * 0.4))).toNat

/-- `plateauPoints = Math.max(2, Math.round(pointCount * 0.2))`. -/
def plateauPoints (pc : ℕ) : ℕ :=
  (max 2 (jsRound ((pc : ℚ) * 0.2))).toNat

/-- `descentPoints = Math.max(3, pointCount - ascentPoints - plateauPoints)`. -/
def descentPoints (pc : ℕ) : ℤ :=
  max 3 ((pc : ℤ) - ascentPoints pc - plateauPoints pc)

/-- The synthesizer's initial elevation `80 + rng() * 600`, drawn from the
third RNG value (after base latitude and longitude). -/
def startElevation (rng : ℕ → ℚ) : ℚ :=
  80 + rng 2 * 600

/-- `totalDurationSeconds = Math.max(600, distanceKm / Math.max(5, speed) *
3600)`. -/
def totalDurationSeconds (r : GpxRequest) : ℚ :=
  max 600 (r.distanceKm / max 5 (estimateAverageSpeed r.practiceType) * 3600)

/-- The loop-invariant context of the synthesizer's `for` loop: the RNG, the
trigonometric model, and every `const` computed before the loop. -/
structure SynthCtx where
  rng : ℕ → ℚ
  sin : ℚ → ℚ
  cos : ℚ → ℚ
  pi : ℚ
  pc : ℕ
  ascent : ℕ
  plateau : ℕ
  descent : ℤ
  baseLat : ℚ
  baseLon : ℚ
  radiusLat : ℚ
  radiusLon : ℚ
  practiceFactor : ℚ
  ascentStep : ℚ
  baseElevation : ℚ
  dur : ℚ

/-- The elevation branch of the loop body at index `i`: ascent phase (with
the final ascent index forced to consume the remaining unallocated gain, the
others jittered around the even step and clamped into `[0, remainingGain]`),
plateau perturbation, or proportional descent toward the base elevation.
Returns the updated `(elevation, remainingAscent, rngCursor)`; the final
ascent index consumes no RNG draw (its conditional short-circuits the jitter
call). -/
def elevUpdate (ctx : SynthCtx) (i rix : ℕ) (e rem : ℚ) : ℚ × ℚ × ℕ :=
  if i < ctx.ascent then
    let step := if i = ctx.ascent - 1 then rem
      else ctx.ascentStep + (ctx.rng (rix + 1) - 0.5) * ctx.ascentStep * 0.3
    let applied := max 0 (min step rem)
    (e + applied, rem - applied, if i = ctx.ascent - 1 then rix + 1 else rix + 2)
  else if i < ctx.ascent + ctx.plateau then
    (e + (ctx.rng (rix + 1) - 0.5) * ctx.ascentStep * 0.2, rem, rix + 2)
  else
    let progress := ((i : ℚ) - (ctx.ascent : ℚ) - (ctx.plateau : ℚ)) /
      max 1 (ctx.descent : ℚ)
    let descentTarget := ctx.baseElevation - ctx.rng (rix + 1) * 20
    (e + (descentTarget - e) * (0.15 + progress * 0.4), rem, rix + 2)

/-- The synthesizer's `for` loop, emitting the remaining `n` points starting
at loop index `i`, with RNG cursor `rix` and the mutable state
`(elevation, remainingAscent) = (e, rem)`.  Each iteration draws the radius
jitter, updates the elevation state, and emits the point with the elevation
clamped to be non-negative; the running `elevation`/`remainingAscent` are
not clamped, exactly as in the source. -/
def synthAux (ctx : SynthCtx) : ℕ → ℕ → ℕ → ℚ → ℚ → List TrackPoint
  | 0, _, _, _, _ => []
  | n + 1, i, rix, e, rem =>
    let t : ℚ := (i : ℚ) / (ctx.pc : ℚ)
    let angle := t * 2 * ctx.pi
    let radiusJitter := 0.7 + ctx.rng rix * 0.6 * ctx.practiceFactor
    let lat := ctx.baseLat + ctx.sin angle * ctx.radiusLat * radiusJitter
    let lon := ctx.baseLon + ctx.cos angle * ctx.radiusLon * radiusJitter
    let next := elevUpdate ctx i rix e rem
    let timeOffset := ctx.dur / (ctx.pc : ℚ) * (i : ℚ)
    ⟨lat, lon, max 0 next.1, timeOffset⟩ :: synthAux ctx n (i + 1) next.2.2 next.1 next.2.1

/-- The loop-closure mutation at the end of `createTrackPoints`: force the
last point's latitude, longitude and elevation to the first point's values,
leaving its time offset as computed. -/
def closeLoop (pts : List TrackPoint) : List TrackPoint :=
  match pts with
  | [] => []
  | f :: _ =>
    match pts.getLast? with
    | some l => pts.dropLast ++ [⟨f.lat, f.lon, f.ele, l.timeOffset⟩]
    | none => []

/-- `createTrackPoints`, parametrised over the trigonometric model and the
RNG stream.  RNG draw order matches the source: base latitude (draw 0), base
longitude (draw 1), start elevation (draw 2), then the loop. -/
def createTrackPointsWith (M : TrigModel) (rng : ℕ → ℚ) (r : GpxRequest) :
    List TrackPoint :=
  let pc := pointCount r.distanceKm
  let baseLat := rng 0 * 140 - 70
  let baseLon := rng 1 * 360 - 180
  let radiusKm := max 1 (r.distanceKm / (2 * M.pi))
  let radiusLat := radiusKm / 111
  let cosLat := M.cos (baseLat * M.pi / 180)
  let sgn : ℚ := if cosLat = 0 then 1 else if 0 < cosLat then 1 else -1
  let safeCos := if 0.1 < |cosLat| then cosLat else 0.1 * sgn
  let radiusLon := radiusKm / (111 * safeCos)
  let ctx : SynthCtx :=
    { rng := rng, sin := M.sin, cos := M.cos, pi := M.pi, pc := pc,
      ascent := ascentPoints pc, plateau := plateauPoints pc,
      descent := descentPoints pc, baseLat := baseLat, baseLon := baseLon,
      radiusLat := radiusLat, radiusLon := radiusLon,
      practiceFactor := getPracticeRoughness r.practiceType,
      ascentStep := r.elevationGain / (ascentPoints pc : ℚ),
      baseElevation := startElevation rng, dur := totalDurationSeconds r }
  closeLoop (synthAux ctx pc 0 3 (startElevation rng) r.elevationGain)

/-- `createTrackPoints` with the source's deterministic RNG, seeded from
`request.address + request.practiceType`. -/
def createTrackPoints (M : TrigModel) (r : GpxRequest) : List TrackPoint :=
  createTrackPointsWith M
    (rngStream (seedOfCodes (jsCharCodes (r.address ++ r.practiceType)))) r

/-- Decimal digits of a natural number, zero-padded on the left to `w`
digits. -/
def padNum (w : ℕ) (n : ℕ) : String :=
  let s := toString n
  String.mk (List.replicate (w - s.length) '0') ++ s

/-- JavaScript `Number.prototype.toFixed(f)` on the exact rational model:
decimal expansion with `f` fractional digits, ties resolved toward the
larger magnitude, a `-` sign prepended for negative values. -/
def qToFixed (f : ℕ) (q : ℚ) : String :=
  let y := |q|
  let n := (⌊y * 10 ^ f + 1 / 2⌋).toNat
  let digits :=
    if f = 0 then toString n
    else toString (n / 10 ^ f) ++ "." ++ padNum f (n % 10 ^ f)
  if q < 0 then "-" ++ digits else digits

/-- `ToInteger` truncation toward zero, used by the `Date` constructor on a
fractional millisecond value. -/
def jsTruncToInt (q : ℚ) : ℤ :=
  if 0 ≤ q then ⌊q⌋ else ⌈q⌉

/-- `Date.prototype.toISOString` on a millisecond epoch value:
`YYYY-MM-DDTHH:mm:ss.sssZ` (expanded `±YYYYYY` years outside `[0, 9999]`),
via the standard civil-from-days conversion of the proleptic Gregorian
calendar. -/
def isoString (ms : ℤ) : String :=
  let day := Int.fdiv ms 86400000
  let msod := (ms - day * 86400000).toNat
  let z2 := day + 719468
  let era := Int.fdiv z2 146097
  let doe := (z2 - era * 146097).toNat
  let yoe := (doe - doe / 1460 + doe / 36524 - doe / 146096) / 365
  let doy := doe - (365 * yoe + yoe / 4 - yoe / 100)
  let mp := (5 * doy + 2) / 153
  let dayOfMonth := doy - (153 * mp + 2) / 5 + 1
  let month := if mp < 10 then mp + 3 else mp - 9
  let yearZ : ℤ := (yoe : ℤ) + era * 400 + (if month ≤ 2 then 1 else 0)
  let yearStr :=
    if 0 ≤ yearZ ∧ yearZ ≤ 9999 then padNum 4 yearZ.toNat
    else if yearZ < 0 then "-" ++ padNum 6 (-yearZ).toNat
    else "+" ++ padNum 6 yearZ.toNat
  yearStr ++ "-" ++ padNum 2 month ++ "-" ++ padNum 2 dayOfMonth ++ "T" ++
    padNum 2 (msod / 3600000) ++ ":" ++ padNum 2 (msod % 3600000 / 60000) ++ ":" ++
    padNum 2 (msod % 60000 / 1000) ++ "." ++ padNum 3 (msod % 1000) ++ "Z"

/-- `escapeXml`: replace the five reserved XML characters by their entities. -/
def escChar (c : Char) : List Char :=
  if c = '&' then "&amp;".data
  else if c = '<' then "&lt;".data
  else if c = '>' then "&gt;".data
  else if c = '"' then "&quot;".data
  else if c = Char.ofNat 39 then "&apos;".data
  else [c]

/-- `escapeXml` on a string. -/
def escapeXml (s : String) : String :=
  String.mk (s.data.foldr (fun c acc => escChar c ++ acc) [])

/-- Collapse adjacent duplicate occurrences of `sep` (used after mapping a
character class to a single replacement character, which composes into the
source's run-replacing regexes). -/
def dedupChar (sep : Char) : List Char → List Char
  | [] => []
  | [c] => [c]
  | c :: d :: rest =>
    if c = sep && d = sep then dedupChar sep (d :: rest)
    else c :: dedupChar sep (d :: rest)

/-- `formatPracticeLabel`: `practiceType.replace(/\s+/g, " ").trim()`.
Replacing each whitespace character by a space and collapsing space runs
yields exactly the run-regex replacement. -/
def formatPracticeLabel (practiceType : String) : String :=
  jsTrim (String.mk (dedupChar ' '
    (practiceType.data.map fun c => if jsIsWs c then ' ' else c)))

/-- The character class `[\p{Letter}\p{Number}]` of `slugify`, restricted to
ASCII (faithful for all ASCII inputs; full Unicode categories are not
modelled). -/
def isAlnumChar (c : Char) : Bool :=
  c.isAlpha || c.isDigit

/-- Remove one leading and one trailing hyphen (`.replace(/^-|-$/g, "")`;
after run collapapsing at most one of each can occur). -/
def stripEdgeHyphens (l : List Char) : List Char :=
  let l1 := match l with
    | '-' :: t => t
    | _ => l
  match l1.getLast? with
  | some '-' => l1.dropLast
  | _ => l1

/-- `slugify`: lower-case, Unicode-normalize (NFD — the identity on the
ASCII inputs modelled here), replace each run of non-alphanumeric characters
by a single hyphen (mapping each such character to `-` and collapsing runs,
which also subsumes the source's redundant second pass collapsing hyphen
runs), and trim one leading/trailing hyphen. -/
def slugify (s : String) : String :=
  String.mk (stripEdgeHyphens (dedupChar '-'
    ((lowerStr s.data).map fun c => if isAlnumChar c then c else '-')))

/-- `buildGpxFilename`:
`cyclocoach-<slugified practice label, or "ride" when empty>-<rounded distance, min 1>km.gpx`. -/
def buildGpxFilename (r : GpxRequest) : String :=
  let practice :=
    if slugify (formatPracticeLabel r.practiceType) = "" then "ride"
    else slugify (formatPracticeLabel r.practiceType)
  let roundedDistance := (max 1 (jsRound r.distanceKm)).toNat
  "cyclocoach-" ++ practice ++ "-" ++ toString roundedDistance ++ "km.gpx"

/-- `.join("\n")`. -/
def joinNewline : List String → String
  | [] => ""
  | [s] => s
  | s :: rest => s ++ "\n" ++ joinNewline rest

/-- `buildGpxDocument`: the serialized XML document.  The source reads the
wall clock (`new Date()`) and truncates it to the whole minute
(`setSeconds(0, 0)`); the clock reading is modelled as the explicit
`nowMs` argument (milliseconds since the epoch, UTC — the truncation is
timezone-independent since zone offsets are whole minutes).  Each point's
timestamp is the start time plus its time offset in seconds, truncated to
milliseconds by the `Date` constructor. -/
def buildGpxDocument (r : GpxRequest) (points : List TrackPoint) (nowMs : ℤ) :
    String :=
  let startMs := nowMs - nowMs % 60000
  let name := "CycloCoach " ++ formatPracticeLabel r.practiceType ++ " route"
  let description := qToFixed 1 r.distanceKm ++ " km loop starting from " ++ r.address
  let segments := joinNewline (points.map fun p =>
    "      <trkpt lat=\"" ++ qToFixed 6 p.lat ++ "\" lon=\"" ++ qToFixed 6 p.lon ++
      "\">\n" ++
    "        <ele>" ++ qToFixed 1 p.ele ++ "</ele>\n" ++
    "        <time>" ++ isoString (jsTruncToInt ((startMs : ℚ) + p.timeOffset * 1000)) ++
      "</time>\n" ++
    "      </trkpt>")
  "<?xml version=\"1.0\" encoding=\"UTF-8\"?>\n" ++
    "<gpx version=\"1.1\" creator=\"CycloCoach\" xmlns=\"http://www.topografix.com/GPX/1/1\">\n" ++
    "  <metadata>\n" ++
    "    <name>" ++ escapeXml name ++ "</name>\n" ++
    "    <desc>" ++ escapeXml description ++ "</desc>\n" ++
    "  </metadata>\n" ++
    "  <trk>\n" ++
    "    <name>" ++ escapeXml name ++ "</name>\n" ++
    "    <trkseg>\n" ++
    segments ++ "\n" ++
    "    </trkseg>\n" ++
    "  </trk>\n" ++
    "</gpx>\n"

/-- `createGpxFile`: synthesize the track and serialize it, returning
`(filename, content)`. -/
def createGpxFile (M : TrigModel) (r : GpxRequest) (nowMs : ℤ) : String × String :=
  (buildGpxFilename r, buildGpxDocument r (createTrackPoints M r) nowMs)

/-- `parseNumberParam` of `src/app/api/gpx/route.ts`: `null` for a missing or
empty value, `Number.parseFloat` otherwise, rejecting non-finite and
negative results and — unless `allowZero` — exact zero. -/
def parseNumberParam (value : Option String) (allowZero : Bool) : Option ℚ :=
  match value with
  | none => none
  | some v =>
    if v = "" then none
    else
      match jsParseFloat v with
      | none => none
      | some q => if q < 0 || (!allowZero && q == 0) then none else some q

/-- The JSON error body of the endpoint's 400 response. -/
def gpxErrorBody : String :=
  "\x7b\"error\":\"Missing or invalid query parameters.\"\x7d"

/-- The endpoint's response: status 400 with a JSON error body, or status
200 with the GPX content and the attachment filename. -/
inductive GpxResponse where
  | badRequest (body : String)
  | ok (content : String) (filename : String)
  deriving DecidableEq, Repr

/-- The `GET` handler: read the four query parameters, parse the numeric
ones (`distanceKm` rejecting zero, `elevationGain` allowing it), answer 400
when address or practice type is missing/empty or a numeric parameter is
rejected, and otherwise serve the generated file. -/
def gpxGet (M : TrigModel) (nowMs : ℤ)
    (address practiceType distanceKm elevationGain : Option String) : GpxResponse :=
  let distanceQ := parseNumberParam distanceKm false
  let elevationQ := parseNumberParam elevationGain true
  if !isTruthy address || !isTruthy practiceType || distanceQ.isNone ||
      elevationQ.isNone then
    GpxResponse.badRequest gpxErrorBody
  else
    let r : GpxRequest :=
      ⟨address.getD "", distanceQ.getD 0, elevationQ.getD 0, practiceType.getD ""⟩
    GpxResponse.ok (createGpxFile M r nowMs).2 (createGpxFile M r nowMs).1

/-! ## Theorems -/

theorem toInt32_congr {a b : ℤ} (h : a % 4294967296 = b % 4294967296) :
    toInt32 a = toInt32 b := by
  unfold toInt32
  rw [h]

theorem toInt32_emod (z : ℤ) : toInt32 z % 4294967296 = z % 4294967296 := by
  unfold toInt32
  split <;> omega

theorem charCodeStep_eq (a c : ℤ) : charCodeStep a c = toInt32 (a * 31 + c) := by
  unfold charCodeStep jsShiftLeft
  apply toInt32_congr
  have e1 : Int.ModEq 4294967296 (toInt32 (toInt32 a * 2 ^ 5)) (a * 32) := by
    show _ % _ = _ % _
    rw [toInt32_emod, Int.mul_emod, toInt32_emod, ← Int.mul_emod]
    norm_num
  have e2 := (e1.sub_right a).add_right c
  have h2 : a * 32 - a + c = a * 31 + c := by ring
  rw [h2] at e2
  exact e2

/-- C8: for every seed string, the seed derived by `createDeterministicRng`'s
character fold (`(seed << 5) - seed + code` followed by `|0` at every step)
equals the fold `acc = acc * 31 + code` wrapped to 32-bit signed semantics at
every step. -/
theorem createDeterministicRng_seed_spec (s : String) :
    seedOfCodes (jsCharCodes s) = seedFoldSpec (jsCharCodes s) := by
  unfold seedOfCodes seedFoldSpec
  have : ∀ (codes : List ℤ) (acc : ℤ),
      codes.foldl charCodeStep acc
        = codes.foldl (fun acc code => toInt32 (acc * 31 + code)) acc := by
    intro codes
    induction codes with
    | nil => intro acc; rfl
    | cons c rest ih =>
        intro acc
        simp only [List.foldl_cons, charCodeStep_eq, ih]
  exact this (jsCharCodes s) 0

/-- C6: for every positive distance, the synthesizer's point count lies in
`[12, 240]`, and it equals `Math.round(distanceKm * 6)` whenever that rounded
value lies within the bounds. -/
theorem pointCount_spec (d : ℚ) (hd : 0 < d) :
    12 ≤ pointCount d ∧ pointCount d ≤ 240 ∧
      (12 ≤ jsRound (d * 6) → jsRound (d * 6) ≤ 240 →
        (pointCount d : ℤ) = jsRound (d * 6)) := by
  unfold pointCount
  set z := jsRound (d * 6) with hz
  refine ⟨?_, ?_, ?_⟩ <;> omega

/-- Witness for C6 at `d = 10` (`Math.round(60) = 60` lies within bounds). -/
theorem pointCount_spec_witness :
    12 ≤ pointCount 10 ∧ pointCount 10 ≤ 240 ∧
      (12 ≤ jsRound ((10 : ℚ) * 6) → jsRound ((10 : ℚ) * 6) ≤ 240 →
        (pointCount 10 : ℤ) = jsRound ((10 : ℚ) * 6)) :=
  pointCount_spec 10 (by norm_num)

/-- Counterexample to C4: the claim asserts `parseElevation "-5 m"` yields no
match (negative rejected), but the regex class `[\d,.]` cannot capture the
minus sign, so the first numeric run is `"5"` and the parse yields `5`. -/
theorem parseElevation_neg_counterexample : parseElevation "-5 m" = some 5 := by
  decide

/-- C4 (amended): `parseDistance "45,5 km" = 45.5` (comma accepted as decimal
separator) and `parseElevation "0 m" = 0` (zero valid) hold as claimed, but
`parseElevation "-5 m"` yields `5`, not a rejection: the leading minus sign
is not part of the numeric grammar, so the captured numeral is `"5"` and the
negative-rejection guard cannot fire on such inputs. -/
theorem numericGrammar_amended :
    parseDistance "45,5 km" = some (91 / 2) ∧
      parseElevation "-5 m" = some 5 ∧
      parseElevation "0 m" = some 0 := by
  refine ⟨by decide, by decide, by decide⟩

/-- Counterexample to C3: the code's route-request marker is the literal
token `gpx`, so the claim's input, which uses `/route` and contains no
occurrence of `gpx`, is rejected outright rather than parsed into a
complete request. -/
theorem parseGpxRequest_route_counterexample :
    parseGpxRequest
        "/route address: 10 Downing Street; distance: 60 km; elevation: 800 m; practice: road"
      = none := by
  decide

/-- C3 (amended): with the marker the code actually uses (`/gpx` rather than
`/route`), parsing the command yields the complete structured request with
address `"10 Downing Street"`, distance `60` km, elevation gain `800` m and
practice type `"road"`. -/
theorem parseGpxRequest_complete_amended :
    parseGpxRequest
        "/gpx address: 10 Downing Street; distance: 60 km; elevation: 800 m; practice: road"
      = some ⟨"10 Downing Street", 60, 800, "road"⟩ := by
  decide

/-- `parseDistance` only succeeds with a positive value. -/
theorem parseDistance_pos {v : String} {q : ℚ} (h : parseDistance v = some q) :
    0 < q := by
  unfold parseDistance at h
  split at h
  · exact Option.noConfusion h
  · split at h
    · exact Option.noConfusion h
    · split at h
      · exact Option.noConfusion h
      · obtain rfl : _ = q := Option.some.inj h
        linarith [not_le.mp (by assumption)]

/-- `parseElevation` only succeeds with a non-negative value. -/
theorem parseElevation_nonneg {v : String} {q : ℚ} (h : parseElevation v = some q) :
    0 ≤ q := by
  unfold parseElevation at h
  split at h
  · exact Option.noConfusion h
  · split at h
    · exact Option.noConfusion h
    · split at h
      · exact Option.noConfusion h
      · obtain rfl : _ = q := Option.some.inj h
        linarith [not_lt.mp (by assumption)]

theorem processSegment_ok {st : ParseAcc} (seg : List Char) (h : accOk st) :
    accOk (processSegment st seg) := by
  unfold processSegment
  dsimp only
  split
  · exact h
  split
  · exact ⟨h.1, h.2⟩
  split
  · exact ⟨h.1, h.2⟩
  split
  · split
    · next heq =>
        refine ⟨?_, h.2⟩
        intro q hq
        obtain rfl := Option.some.inj hq
        exact parseDistance_pos heq
    · exact h
  split
  · split
    · next heq =>
        refine ⟨h.1, ?_⟩
        intro q hq
        obtain rfl := Option.some.inj hq
        exact parseElevation_nonneg heq
    · exact h
  · split
    · next heq =>
        split at heq
        · refine ⟨?_, h.2⟩
          intro q hq
          obtain rfl := Option.some.inj hq
          exact parseDistance_pos heq
        · exact Option.noConfusion heq
    · next =>
        split
        · next heq =>
            split at heq
            · refine ⟨h.1, ?_⟩
              intro q hq
              obtain rfl := Option.some.inj hq
              exact parseElevation_nonneg heq
            · exact Option.noConfusion heq
        · split
          · exact ⟨h.1, h.2⟩
          · split
            · exact ⟨h.1, h.2⟩
            · exact h

theorem foldl_processSegment_ok (segs : List (List Char)) {st : ParseAcc}
    (h : accOk st) : accOk (segs.foldl processSegment st) := by
  induction segs generalizing st with
  | nil => exact h
  | cons s rest ih => exact ih (processSegment_ok s h)

theorem isTruthy_getD {o : Option String} (h : isTruthy o = true) :
    o.getD "" ≠ "" := by
  cases o with
  | none => exact absurd h (by simp [isTruthy])
  | some s =>
      simp only [isTruthy, Bool.not_eq_eq_eq_not, Bool.not_true, beq_eq_false_iff_ne,
        ne_eq] at h
      simpa [Option.getD] using h

/-- C7: the parser never exposes a partially-filled request — every returned
request has a non-empty address, a positive distance, a non-negative
elevation gain and a non-empty practice type — and in particular
`"/route distance: 60 km"` (missing address and practice, and missing the
`gpx` marker) yields no match. -/
theorem parseGpxRequest_no_partial :
    (∀ (msg : String) (r : GpxRequest), parseGpxRequest msg = some r →
        r.address ≠ "" ∧ 0 < r.distanceKm ∧ 0 ≤ r.elevationGain ∧ r.practiceType ≠ "") ∧
      parseGpxRequest "/route distance: 60 km" = none := by
  constructor
  · intro msg r h
    unfold parseGpxRequest at h
    split at h
    · exact Option.noConfusion h
    split at h
    · exact Option.noConfusion h
    dsimp only at h
    split at h
    · next hguard =>
        obtain rfl := Option.some.inj h
        simp only [Bool.and_eq_true] at hguard
        obtain ⟨⟨⟨haddr, hdist⟩, helev⟩, hprac⟩ := hguard
        have hacc : accOk ((segmentsOf msg).foldl processSegment ⟨none, none, none, none⟩) :=
          foldl_processSegment_ok (segmentsOf msg)
            ⟨fun q hq => Option.noConfusion hq, fun q hq => Option.noConfusion hq⟩
        refine ⟨isTruthy_getD haddr, ?_, ?_, isTruthy_getD hprac⟩
        · obtain ⟨q, hq⟩ := Option.isSome_iff_exists.mp hdist
          rw [hq]
          exact hacc.1 q hq
        · obtain ⟨q, hq⟩ := Option.isSome_iff_exists.mp helev
          rw [hq]
          exact hacc.2 q hq
    · exact Option.noConfusion h
  · decide

/-- Witness for C7 at the complete `/gpx` command. -/
theorem parseGpxRequest_no_partial_witness :
    (⟨"10 Downing Street", 60, 800, "road"⟩ : GpxRequest).address ≠ "" ∧
      0 < (⟨"10 Downing Street", 60, 800, "road"⟩ : GpxRequest).distanceKm ∧
      0 ≤ (⟨"10 Downing Street", 60, 800, "road"⟩ : GpxRequest).elevationGain ∧
      (⟨"10 Downing Street", 60, 800, "road"⟩ : GpxRequest).practiceType ≠ "" :=
  parseGpxRequest_no_partial.1
    "/gpx address: 10 Downing Street; distance: 60 km; elevation: 800 m; practice: road"
    ⟨"10 Downing Street", 60, 800, "road"⟩ (by decide)

theorem pointCount_bounds (d : ℚ) : 12 ≤ pointCount d ∧ pointCount d ≤ 240 := by
  unfold pointCount
  set z := jsRound (d * 6) with hz
  constructor <;> omega

theorem ascentPoints_ge_three (pc : ℕ) : 3 ≤ ascentPoints pc := by
  unfold ascentPoints
  set z := jsRound ((pc : ℚ) * 0.4) with hz
  omega

theorem ascentPoints_lt_pointCount (d : ℚ) :
    ascentPoints (pointCount d) < pointCount d := by
  have h12 := (pointCount_bounds d).1
  unfold ascentPoints
  have hz : jsRound ((pointCount d : ℚ) * 0.4) < (pointCount d : ℤ) := by
    unfold jsRound
    rw [Int.floor_lt]
    have h12q : (12 : ℚ) ≤ (pointCount d : ℚ) := by exact_mod_cast h12
    push_cast
    norm_num
    linarith
  omega

theorem synthAux_length (ctx : SynthCtx) (n : ℕ) :
    ∀ (i rix : ℕ) (e rem : ℚ), (synthAux ctx n i rix e rem).length = n := by
  induction n with
  | zero => intro i rix e rem; rfl
  | succ k ih =>
      intro i rix e rem
      simp only [synthAux, List.length_cons, ih]

theorem getLast?_cons_of_ne_nil {α : Type} {a : α} {l : List α} (h : l ≠ []) :
    (a :: l).getLast? = l.getLast? := by
  cases l with
  | nil => exact absurd rfl h
  | cons b t => exact List.getLast?_cons_cons

theorem synthAux_getLast_timeOffset (ctx : SynthCtx) (n : ℕ) (hn : 0 < n) :
    ∀ (i rix : ℕ) (e rem : ℚ),
      (synthAux ctx n i rix e rem).getLast?.map TrackPoint.timeOffset
        = some (ctx.dur / (ctx.pc : ℚ) * ((i : ℚ) + (n : ℚ) - 1)) := by
  induction n with
  | zero => omega
  | succ k ih =>
      intro i rix e rem
      by_cases hk : k = 0
      · subst hk
        simp only [synthAux, List.getLast?_singleton, Option.map_some']
        norm_num
      · have hk' : 0 < k := Nat.pos_of_ne_zero hk
        simp only [synthAux]
        rw [getLast?_cons_of_ne_nil]
        · rw [ih hk']
          congr 1
          push_cast
          ring
        · intro hcon
          have := synthAux_length ctx k (i + 1)
            (elevUpdate ctx i rix e rem).2.2 (elevUpdate ctx i rix e rem).1
            (elevUpdate ctx i rix e rem).2.1
          rw [hcon] at this
          simp at this
          omega

theorem elevUpdate_lastAscent (ctx : SynthCtx) (i rix : ℕ) (e rem : ℚ)
    (h1 : i < ctx.ascent) (hlast : i = ctx.ascent - 1) (hrem : 0 ≤ rem) :
    (elevUpdate ctx i rix e rem).1 = e + rem := by
  unfold elevUpdate
  rw [if_pos h1]
  dsimp only
  rw [if_pos hlast]
  simp [min_self, max_eq_right hrem]

theorem elevUpdate_ascent_inv (ctx : SynthCtx) (i rix : ℕ) (e rem : ℚ)
    (h1 : i < ctx.ascent) (hrem : 0 ≤ rem) :
    (elevUpdate ctx i rix e rem).1 + (elevUpdate ctx i rix e rem).2.1 = e + rem ∧
      0 ≤ (elevUpdate ctx i rix e rem).2.1 := by
  unfold elevUpdate
  rw [if_pos h1]
  dsimp only
  constructor
  · ring
  · have happ : max 0 (min (if i = ctx.ascent - 1 then rem
        else ctx.ascentStep + (ctx.rng (rix + 1) - 0.5) * ctx.ascentStep * 0.3) rem) ≤ rem :=
      max_le hrem (min_le_right _ _)
    linarith

theorem synthAux_lastAscent_ele (ctx : SynthCtx) (n : ℕ) :
    ∀ (i rix : ℕ) (e rem : ℚ), i < ctx.ascent → ctx.ascent ≤ i + n → 0 ≤ rem →
      ((synthAux ctx n i rix e rem)[ctx.ascent - 1 - i]?).map TrackPoint.ele
        = some (max 0 (e + rem)) := by
  induction n with
  | zero => intro i rix e rem h1 h2 _; omega
  | succ k ih =>
      intro i rix e rem h1 h2 hrem
      by_cases hlast : i = ctx.ascent - 1
      · have hidx : ctx.ascent - 1 - i = 0 := by omega
        simp only [synthAux, hidx, List.getElem?_cons_zero]
        rw [elevUpdate_lastAscent ctx i rix e rem h1 hlast hrem]
        rfl
      · have hidx : ctx.ascent - 1 - i = (ctx.ascent - 1 - (i + 1)) + 1 := by omega
        obtain ⟨hsum, hrem'⟩ := elevUpdate_ascent_inv ctx i rix e rem h1 hrem
        simp only [synthAux, hidx, List.getElem?_cons_succ]
        rw [ih (i + 1) (elevUpdate ctx i rix e rem).2.2 (elevUpdate ctx i rix e rem).1
          (elevUpdate ctx i rix e rem).2.1 (by omega) (by omega) hrem']
        rw [show (elevUpdate ctx i rix e rem).1 + (elevUpdate ctx i rix e rem).2.1
          = e + rem from hsum]

theorem closeLoop_getElem?_of_lt (pts : List TrackPoint) {j : ℕ}
    (h : j < pts.length - 1) : (closeLoop pts)[j]? = pts[j]? := by
  cases pts with
  | nil => simp at h
  | cons f rest =>
      rw [closeLoop, List.getLast?_eq_getLast _ (by simp)]
      rw [List.getElem?_append, if_pos (by rw [List.length_dropLast]; exact h),
        List.dropLast_eq_take, List.getElem?_take, if_pos h]

/-- C5: for every valid ride request and every RNG stream, the synthesized
track has its first and last points equal in latitude, longitude and
elevation (closed loop), while the last point's time offset is left as
computed by the uniform-pacing formula, `totalDuration/pointCount * (pointCount-1)`. -/
theorem createTrackPoints_closed_loop (M : TrigModel) (rng : ℕ → ℚ)
    (r : GpxRequest) (hd : 0 < r.distanceKm) :
    ((createTrackPointsWith M rng r).head?.map TrackPoint.lat
        = (createTrackPointsWith M rng r).getLast?.map TrackPoint.lat) ∧
      ((createTrackPointsWith M rng r).head?.map TrackPoint.lon
        = (createTrackPointsWith M rng r).getLast?.map TrackPoint.lon) ∧
      ((createTrackPointsWith M rng r).head?.map TrackPoint.ele
        = (createTrackPointsWith M rng r).getLast?.map TrackPoint.ele) ∧
      ((createTrackPointsWith M rng r).getLast?.map TrackPoint.timeOffset
        = some (totalDurationSeconds r / (pointCount r.distanceKm : ℚ)
            * ((pointCount r.distanceKm : ℚ) - 1))) := by
  have h12 := (pointCount_bounds r.distanceKm).1
  unfold createTrackPointsWith
  dsimp only
  generalize hctx : (SynthCtx.mk _ _ _ _ _ _ _ _ _ _ _ _ _ _ _ _ : SynthCtx) = ctx
  have hpc : ctx.pc = pointCount r.distanceKm := by rw [← hctx]
  have hdur : ctx.dur = totalDurationSeconds r := by rw [← hctx]
  rw [← hpc, ← hdur]
  generalize pointCount r.distanceKm = n at hpc h12
  rw [hpc]
  generalize startElevation rng = e0
  generalize r.elevationGain = g
  have hlen := synthAux_length ctx n 0 3 e0 g
  have htime := synthAux_getLast_timeOffset ctx n (by omega) 0 3 e0 g
  rcases hl : synthAux ctx n 0 3 e0 g with _ | ⟨f, rest⟩
  · rw [hl] at hlen
    simp at hlen
    omega
  · rw [hl] at hlen htime
    rcases rest with _ | ⟨b, t⟩
    · simp at hlen
      omega
    · have hne : (b :: t : List TrackPoint) ≠ [] := by simp
      rw [closeLoop, List.getLast?_eq_getLast _ (by simp)]
      dsimp only
      rw [show (f :: b :: t).dropLast = f :: (b :: t).dropLast from rfl]
      rw [List.cons_append, getLast?_cons_of_ne_nil (by simp), List.getLast?_concat]
      simp only [List.head?_cons, Option.map_some']
      refine ⟨trivial, trivial, trivial, ?_⟩
      rw [List.getLast?_eq_getLast _ (by simp)] at htime
      simp only [Option.map_some', Option.some.injEq] at htime
      rw [hpc] at htime
      rw [htime]
      norm_num

/-- Witness for C5 at a concrete request, trigonometric stand-ins and RNG. -/
theorem createTrackPoints_closed_loop_witness :
    ((createTrackPointsWith ⟨fun _ => 0, fun _ => 0, 0⟩ (fun _ => 1/2)
          ⟨"a", 10, 100, "road"⟩).head?.map TrackPoint.lat
        = (createTrackPointsWith ⟨fun _ => 0, fun _ => 0, 0⟩ (fun _ => 1/2)
          ⟨"a", 10, 100, "road"⟩).getLast?.map TrackPoint.lat) ∧
      ((createTrackPointsWith ⟨fun _ => 0, fun _ => 0, 0⟩ (fun _ => 1/2)
          ⟨"a", 10, 100, "road"⟩).head?.map TrackPoint.lon
        = (createTrackPointsWith ⟨fun _ => 0, fun _ => 0, 0⟩ (fun _ => 1/2)
          ⟨"a", 10, 100, "road"⟩).getLast?.map TrackPoint.lon) ∧
      ((createTrackPointsWith ⟨fun _ => 0, fun _ => 0, 0⟩ (fun _ => 1/2)
          ⟨"a", 10, 100, "road"⟩).head?.map TrackPoint.ele
        = (createTrackPointsWith ⟨fun _ => 0, fun _ => 0, 0⟩ (fun _ => 1/2)
          ⟨"a", 10, 100, "road"⟩).getLast?.map TrackPoint.ele) ∧
      ((createTrackPointsWith ⟨fun _ => 0, fun _ => 0, 0⟩ (fun _ => 1/2)
          ⟨"a", 10, 100, "road"⟩).getLast?.map TrackPoint.timeOffset
        = some (totalDurationSeconds ⟨"a", 10, 100, "road"⟩
            / (pointCount (10 : ℚ) : ℚ) * ((pointCount (10 : ℚ) : ℚ) - 1))) :=
  createTrackPoints_closed_loop ⟨fun _ => 0, fun _ => 0, 0⟩ (fun _ => 1/2)
    ⟨"a", 10, 100, "road"⟩ (by norm_num)

/-- C1: for every valid ride request (positive distance, non-negative
elevation gain) and every sequence of RNG draws in `[0,1)`, the elevation of
the last ascent-phase point minus the start elevation equals the requested
elevation gain exactly: the forced final ascent step consumes the remaining
unallocated gain, which the per-step clamp keeps in `[0, remainingGain]`. -/
theorem createTrackPoints_elevation_conservation (M : TrigModel) (rng : ℕ → ℚ)
    (r : GpxRequest) (hrng : ∀ n, 0 ≤ rng n ∧ rng n < 1)
    (hd : 0 < r.distanceKm) (hg : 0 ≤ r.elevationGain) :
    ((createTrackPointsWith M rng r)[ascentPoints (pointCount r.distanceKm) - 1]?).map
        (fun p => p.ele - startElevation rng)
      = some r.elevationGain := by
  have h12 := (pointCount_bounds r.distanceKm).1
  have hlt := ascentPoints_lt_pointCount r.distanceKm
  have h3 := ascentPoints_ge_three (pointCount r.distanceKm)
  unfold createTrackPointsWith
  dsimp only
  generalize hctx : (SynthCtx.mk _ _ _ _ _ _ _ _ _ _ _ _ _ _ _ _ : SynthCtx) = ctx
  have hpc : ctx.pc = pointCount r.distanceKm := by rw [← hctx]
  have hasc : ctx.ascent = ascentPoints (pointCount r.distanceKm) := by rw [← hctx]
  have hlen := synthAux_length ctx (pointCount r.distanceKm) 0 3
    (startElevation rng) r.elevationGain
  rw [closeLoop_getElem?_of_lt _ (by rw [hlen]; omega)]
  have hmain := synthAux_lastAscent_ele ctx (pointCount r.distanceKm) 0 3
    (startElevation rng) r.elevationGain (by omega) (by omega) hg
  rw [Nat.sub_zero, hasc] at hmain
  obtain ⟨p, hp, hpe⟩ := Option.map_eq_some'.mp hmain
  rw [hp]
  have he0 : 0 ≤ startElevation rng + r.elevationGain := by
    have := (hrng 2).1
    unfold startElevation
    linarith
  show some (p.ele - startElevation rng) = some r.elevationGain
  rw [show p.ele = max 0 (startElevation rng + r.elevationGain) from hpe,
    max_eq_right he0]
  congr 1
  ring

/-- Witness for C1 at a concrete request, trigonometric stand-ins and RNG. -/
theorem createTrackPoints_elevation_conservation_witness :
    ((createTrackPointsWith ⟨fun _ => 0, fun _ => 0, 0⟩ (fun _ => 1/2)
          ⟨"a", 10, 100, "road"⟩)[ascentPoints (pointCount (10 : ℚ)) - 1]?).map
        (fun p => p.ele - startElevation (fun _ => 1/2))
      = some ((⟨"a", 10, 100, "road"⟩ : GpxRequest).elevationGain) :=
  createTrackPoints_elevation_conservation ⟨fun _ => 0, fun _ => 0, 0⟩ (fun _ => 1/2)
    ⟨"a", 10, 100, "road"⟩ (fun n => by norm_num) (by norm_num) (by norm_num)

/-- Counterexample to C2: the document builder reads the wall clock, so two
independent runs with identical request fields but clock readings one minute
apart produce different XML documents (their `<time>` elements differ);
byte-identical documents are not guaranteed across independent runs. -/
theorem buildGpxDocument_time_counterexample :
    buildGpxDocument ⟨"a", 2, 0, "road"⟩
        (createTrackPoints ⟨fun _ => 0, fun _ => 0, 0⟩ ⟨"a", 2, 0, "road"⟩) 0
      ≠ buildGpxDocument ⟨"a", 2, 0, "road"⟩
        (createTrackPoints ⟨fun _ => 0, fun _ => 0, 0⟩ ⟨"a", 2, 0, "road"⟩) 60000 := by
  decide

/-- C2 (amended): synthesis is a deterministic function of the request
fields alone — two runs with identical address, distance, elevation gain and
practice type produce identical track-point sequences — and document
building is deterministic in the request fields and the wall-clock reading:
the XML documents of two runs are byte-identical whenever the runs also
share the same clock reading (equivalently, the same minute, since the
builder truncates the clock to the minute).  Identical fields alone do not
make the XML identical (see the counterexample). -/
theorem synthesis_deterministic_amended :
    (∀ (M : TrigModel) (r₁ r₂ : GpxRequest),
        r₁.address = r₂.address → r₁.distanceKm = r₂.distanceKm →
        r₁.elevationGain = r₂.elevationGain → r₁.practiceType = r₂.practiceType →
          createTrackPoints M r₁ = createTrackPoints M r₂) ∧
      (∀ (M : TrigModel) (r₁ r₂ : GpxRequest) (nowMs : ℤ),
          r₁.address = r₂.address → r₁.distanceKm = r₂.distanceKm →
          r₁.elevationGain = r₂.elevationGain → r₁.practiceType = r₂.practiceType →
            buildGpxDocument r₁ (createTrackPoints M r₁) nowMs
              = buildGpxDocument r₂ (createTrackPoints M r₂) nowMs) := by
  constructor
  · intro M r₁ r₂ h1 h2 h3 h4
    have : r₁ = r₂ := by cases r₁; cases r₂; simp_all
    rw [this]
  · intro M r₁ r₂ nowMs h1 h2 h3 h4
    have : r₁ = r₂ := by cases r₁; cases r₂; simp_all
    rw [this]

/-- Witness for C2 (amended) at a concrete request, trig stand-ins and
clock reading. -/
theorem synthesis_deterministic_amended_witness :
    createTrackPoints ⟨fun _ => 0, fun _ => 0, 0⟩ ⟨"a", 2, 0, "road"⟩
      = createTrackPoints ⟨fun _ => 0, fun _ => 0, 0⟩ ⟨"a", 2, 0, "road"⟩ :=
  synthesis_deterministic_amended.1 ⟨fun _ => 0, fun _ => 0, 0⟩
    ⟨"a", 2, 0, "road"⟩ ⟨"a", 2, 0, "road"⟩ rfl rfl rfl rfl

/-- C9: a request with practice `"Mountain Bike!!"` and distance `44.6`
yields the filename `cyclocoach-mountain-bike-45km.gpx` (slug
`mountain-bike`, rounded distance `45`); and in general the filename is the
prefix, the slugified practice label (lower-cased, normalized, runs of
non-alphanumerics collapsed to single hyphens, edge hyphens trimmed,
falling back to `ride` when empty) and the distance rounded to the nearest
integer with a minimum of 1. -/
theorem buildGpxFilename_spec :
    buildGpxFilename ⟨"addr", 44.6, 750, "Mountain Bike!!"⟩
        = "cyclocoach-mountain-bike-45km.gpx" ∧
      ∀ r : GpxRequest, buildGpxFilename r =
        "cyclocoach-" ++
          (if slugify (formatPracticeLabel r.practiceType) = "" then "ride"
            else slugify (formatPracticeLabel r.practiceType)) ++ "-" ++
          toString (max 1 (jsRound r.distanceKm)).toNat ++ "km.gpx" := by
  constructor
  · decide
  · intro r
    rfl

/-- C10: the endpoint answers 400 with the JSON error body exactly when the
address or practice type is missing or empty, or the distance parameter is
missing, non-numeric, negative or zero, or the elevation parameter is
missing, non-numeric or negative; on any accepted request it answers 200
with the GPX document and the attachment filename.  The validation is
asymmetric in zero: `"0"` is rejected as a distance but accepted as an
elevation gain. -/
theorem gpxGet_spec :
    (∀ (M : TrigModel) (t : ℤ) (a p dk eg : Option String),
        gpxGet M t a p dk eg = GpxResponse.badRequest gpxErrorBody ↔
          isTruthy a = false ∨ isTruthy p = false ∨
            parseNumberParam dk false = none ∨ parseNumberParam eg true = none) ∧
      (∀ (M : TrigModel) (t : ℤ) (av pv : String) (dk eg : Option String)
          (qd qe : ℚ), av ≠ "" → pv ≠ "" →
          parseNumberParam dk false = some qd → parseNumberParam eg true = some qe →
            gpxGet M t (some av) (some pv) dk eg =
              GpxResponse.ok
                (buildGpxDocument ⟨av, qd, qe, pv⟩
                  (createTrackPoints M ⟨av, qd, qe, pv⟩) t)
                (buildGpxFilename ⟨av, qd, qe, pv⟩)) ∧
      parseNumberParam (some "0") false = none ∧
      parseNumberParam (some "0") true = some 0 ∧
      parseNumberParam (some "-5") true = none ∧
      parseNumberParam (some "abc") true = none := by
  refine ⟨?_, ?_, by decide, by decide, by decide, by decide⟩
  · intro M t a p dk eg
    unfold gpxGet
    dsimp only
    have hc : (!isTruthy a || !isTruthy p || (parseNumberParam dk false).isNone
        || (parseNumberParam eg true).isNone) = true ↔
          (isTruthy a = false ∨ isTruthy p = false ∨
            parseNumberParam dk false = none ∨ parseNumberParam eg true = none) := by
      simp [Bool.or_eq_true, Bool.not_eq_true', Option.isNone_iff_eq_none]
      tauto
    split
    · next h =>
        exact ⟨fun _ => hc.mp h, fun _ => rfl⟩
    · next h =>
        constructor
        · intro hcontra
          exact GpxResponse.noConfusion hcontra
        · intro hr
          exact absurd (hc.mpr hr) h
  · intro M t av pv dk eg qd qe hav hpv hdk heg
    unfold gpxGet
    dsimp only
    rw [hdk, heg]
    have h1 : isTruthy (some av) = true := by simp [isTruthy, hav]
    have h2 : isTruthy (some pv) = true := by simp [isTruthy, hpv]
    rw [if_neg (by simp [h1, h2])]
    rfl

/-- Witness for C10 at a concrete accepted request. -/
theorem gpxGet_spec_witness :
    gpxGet ⟨fun _ => 0, fun _ => 0, 0⟩ 0 (some "a") (some "road") (some "60")
        (some "800") =
      GpxResponse.ok
        (buildGpxDocument ⟨"a", 60, 800, "road"⟩
          (createTrackPoints ⟨fun _ => 0, fun _ => 0, 0⟩ ⟨"a", 60, 800, "road"⟩) 0)
        (buildGpxFilename ⟨"a", 60, 800, "road"⟩) :=
  gpxGet_spec.2.1 ⟨fun _ => 0, fun _ => 0, 0⟩ 0 "a" "road" (some "60") (some "800")
    60 800 (by decide) (by decide) (by decide) (by decide)
